import Mathlib

/-!
Verification development for the finding-aggregation and scoring pipeline
of the security-hygiene scanner (modules `scanner/scorer.py` and
`scanner/osv_client.py`).

Shallow embedding conventions:
* Python dicts with a fixed set of keys become Lean structures.  A key the
  code reads with a bare `d["k"]` subscript (raising `KeyError` when absent)
  becomes an `Option` field, and the reading code returns `Except`; a key the
  code reads with `d.get("k", default)` becomes a plain field holding the
  already-defaulted value, except `v.get("id")` (no default, `None` when
  absent) which stays an `Option`.
* A CVSS severity signal is embedded as the outcome of Python's
  `float(s.get("score", 0))`: `some q` when the call succeeds with value `q`
  (a signal dict missing the `score` key yields `some 0`, since `float(0)`
  succeeds), `none` when `float` raises.  Rationals stand in for IEEE
  doubles; every comparison and the final rounding in the scorer happens at
  least 1/3 away from a decision boundary, so the substitution is exact.
* Python's banker's rounding `round` is embedded as Mathlib's `round` on ℚ;
  the two differ only at exact halves, and the scorer's value
  `100 - raw * 5 / 3` is never an exact half (its denominator is 3).
-/

/-- Outcome of `float(s.get("score", 0))` on one severity-signal dict. -/
abbrev SevSignal := Option ℚ

/-- One event dict inside an OSV `ranges` entry; the code only ever reads
the `fixed` key (`if "fixed" in event: ... event["fixed"]`). -/
structure OSVEvent where
  fixed : Option String
  deriving Repr, DecidableEq

/-- One entry of an advisory's `affected[].ranges` list. -/
structure OSVRange where
  events : List OSVEvent
  deriving Repr, DecidableEq

/-- One entry of an advisory's `affected` list. -/
structure OSVAffected where
  ranges : List OSVRange
  deriving Repr, DecidableEq

/-- One raw advisory object from an OSV batch result (`v` in
`flatten_vulns`).  `id` is read with `v.get("id")`, hence `Option`; the
other keys are read with defaults and are stored pre-defaulted. -/
structure AdvisoryRecord where
  id : Option String
  aliases : List String
  summary : String
  severity : List SevSignal
  affected : List OSVAffected
  deriving Repr, DecidableEq

/-- One element of `batch_results` (`r` in `flatten_vulns`): the dict
`{"name": ..., "version": ..., "vulns": [...]}`.  `name` and `version` are
read with bare subscripts, so they are `Option` fields and their absence is
a `KeyError`. -/
structure RawResult where
  name : Option String
  version : Option String
  vulns : List AdvisoryRecord
  deriving Repr, DecidableEq

/-- Intermediate entry appended to `flat` inside `flatten_vulns`. -/
structure FlatEntry where
  package : String
  version : String
  id : Option String
  aliases : List String
  summary : String
  severity : List SevSignal
  fixed : List String
  fixed_hint : String
  deriving Repr, DecidableEq

/-- Value of the `merged` dict for one `(package, version)` key. -/
structure MergedEntry where
  package : String
  version : String
  ids : List (Option String)
  aliases : List String
  summary : String
  severity : List SevSignal
  fixed_hint : String
  deriving Repr, DecidableEq

/-- Final normalized vulnerability finding emitted by `flatten_vulns`
(the dict in its trailing list comprehension, which drops `aliases`). -/
structure VulnFinding where
  package : String
  version : String
  ids : List (Option String)
  summary : String
  severity : List SevSignal
  fixed_hint : String
  deriving Repr, DecidableEq

/-- `fixed_versions` extraction: the triple nested loop over
`v["affected"][].ranges[].events[]` collecting every `fixed` key. -/
def extractFixed (affected : List OSVAffected) : List String :=
  affected.flatMap fun aff =>
    aff.ranges.flatMap fun rng =>
      rng.events.filterMap fun event => event.fixed

/-- The `fixed_hint` string: `"Upgrade to ≥ <first fixed version>"` when at
least one fixed version was collected, empty otherwise. -/
def fixedHint (fixedVersions : List String) : String :=
  match fixedVersions with
  | [] => ""
  | f :: _ => "Upgrade to ≥ " ++ f

/-- Inner loop of `flatten_vulns` over one result's `vulns`, threading the
run-scoped `seen_ids` set (represented as a list, membership-checked). -/
def processVulns (pkg ver : String) :
    List AdvisoryRecord → List (Option String) →
    List FlatEntry × List (Option String)
  | [], seen => ([], seen)
  | v :: vs, seen =>
    if v.id ∈ seen then
      processVulns pkg ver vs seen
    else
      let fixedVersions := extractFixed v.affected
      let entry : FlatEntry :=
        { package := pkg, version := ver, id := v.id, aliases := v.aliases,
          summary := v.summary, severity := v.severity,
          fixed := fixedVersions, fixed_hint := fixedHint fixedVersions }
      let rest := processVulns pkg ver vs (seen ++ [v.id])
      (entry :: rest.1, rest.2)

/-- First phase of `flatten_vulns`: the outer loop over `batch_results`
building `flat`.  A missing `name` or `version` key is the `KeyError` the
Python subscript raises. -/
def buildFlat :
    List RawResult → List (Option String) →
    Except String (List FlatEntry × List (Option String))
  | [], seen => .ok ([], seen)
  | r :: rs, seen =>
    match r.name, r.version with
    | some pkg, some ver =>
      let step := processVulns pkg ver r.vulns seen
      match buildFlat rs step.2 with
      | .ok (rest, seen') => .ok (step.1 ++ rest, seen')
      | .error e => .error e
    | none, _ => .error "KeyError: name"
    | some _, none => .error "KeyError: version"

/-- The `(package, version)` key of a flat entry. -/
def FlatEntry.key (e : FlatEntry) : String × String := (e.package, e.version)

/-- The `(package, version)` key of a merged entry. -/
def MergedEntry.key (m : MergedEntry) : String × String := (m.package, m.version)

/-- The `(package, version)` key of a finding. -/
def VulnFinding.key (v : VulnFinding) : String × String := (v.package, v.version)

/-- One step of the `merged` dict construction: a fresh key inserts a new
entry (Python dicts preserve insertion order); an existing key only appends
the record's id. -/
def insertFlat (acc : List MergedEntry) (e : FlatEntry) : List MergedEntry :=
  if acc.any fun m => m.key = e.key then
    acc.map fun m =>
      if m.key = e.key then { m with ids := m.ids ++ [e.id] } else m
  else
    acc ++ [{ package := e.package, version := e.version, ids := [e.id],
              aliases := e.aliases, summary := e.summary,
              severity := e.severity, fixed_hint := e.fixed_hint }]

/-- The trailing list comprehension of `flatten_vulns`, dropping `aliases`. -/
def MergedEntry.toFinding (m : MergedEntry) : VulnFinding :=
  { package := m.package, version := m.version, ids := m.ids,
    summary := m.summary, severity := m.severity, fixed_hint := m.fixed_hint }

/-- `OSVClient.flatten_vulns`: build `flat` with global id dedup, merge per
`(package, version)` key, convert to the final finding list. -/
def flatten_vulns (batch : List RawResult) : Except String (List VulnFinding) :=
  match buildFlat batch [] with
  | .error e => .error e
  | .ok (flat, _) => .ok (((flat.foldl insertFlat []).map MergedEntry.toFinding))

/-- `SEV_WEIGHTS` dict from `scanner/scorer.py`. -/
def SEV_WEIGHTS (s : String) : Option ℕ :=
  if s = "critical" then some 10
  else if s = "high" then some 7
  else if s = "medium" then some 4
  else if s = "low" then some 1
  else none

/-- First successfully parsed numeric score in the signal list: the
`for s in entry.get("severity", []): try ... break except: pass` loop. -/
def firstParsed : List SevSignal → Option ℚ
  | [] => none
  | some q :: _ => some q
  | none :: rest => firstParsed rest

/-- `sev_from_cvss` from `scanner/scorer.py`: threshold mapping of the
first parsed numeric severity signal, defaulting to `"medium"`. -/
def sev_from_cvss (entry : VulnFinding) : String :=
  match firstParsed entry.severity with
  | none => "medium"
  | some score =>
    if 9 ≤ score then "critical"
    else if 7 ≤ score then "high"
    else if 4 ≤ score then "medium"
    else "low"

/-- Secret finding as consumed by the scorer (and echoed in `details`):
the scorer reads only `s.get("severity", "medium")`, the other keys are
carried opaquely. -/
structure SecretFinding where
  type_ : String
  path : String
  match_ : String
  severity : Option String
  fix : String
  deriving Repr, DecidableEq

/-- Config finding as consumed by the scorer. -/
structure ConfigFinding where
  id : String
  path : String
  desc : String
  severity : Option String
  fix : String
  ref : List String
  deriving Repr, DecidableEq

/-- A vulnerability entry of `details["vulns"]`: the input record spread
into a new dict with the single added key `our_severity`
(`{**v, "our_severity": sev}`). -/
structure ClassifiedVuln where
  base : VulnFinding
  our_severity : String
  deriving Repr, DecidableEq

/-- The `details` dict returned by `score_findings`. -/
structure Details where
  vulns : List ClassifiedVuln
  secrets : List SecretFinding
  configs : List ConfigFinding
  deriving Repr, DecidableEq

/-- The dict returned by `score_findings`. -/
structure ScoreResult where
  score : ℤ
  points : ℕ
  details : Details
  deriving Repr, DecidableEq

/-- Weight a vulnerability contributes: `SEV_WEIGHTS[sev]`; the subscript
cannot raise because `sev_from_cvss` only returns keys of the table. -/
def vulnWeight (v : VulnFinding) : ℕ :=
  (SEV_WEIGHTS (sev_from_cvss v)).getD 0

/-- Weight of a secret: `SEV_WEIGHTS.get(s.get("severity", "medium"), 4)`. -/
def secretWeight (s : SecretFinding) : ℕ :=
  (SEV_WEIGHTS (s.severity.getD "medium")).getD 4

/-- Weight of a config finding, same defaulted lookup as for secrets. -/
def configWeight (c : ConfigFinding) : ℕ :=
  (SEV_WEIGHTS (c.severity.getD "medium")).getD 4

/-- The scorer's `max_bad` constant. -/
def max_bad : ℕ := 60

/-- Final normalization of `score_findings`:
`raw = max(0, min(points, max_bad))`, then
`int(round(100 - (raw / max_bad) * 100))`. -/
def scoreOfPoints (points : ℕ) : ℤ :=
  let raw : ℕ := max 0 (min points max_bad)
  round ((100 : ℚ) - ((raw : ℚ) / (max_bad : ℚ)) * 100)

/-- `score_findings` from `scanner/scorer.py`: classify vulnerabilities,
accumulate the three weight loops into `points`, normalize, and return the
result dict. -/
def score_findings (vulns : List VulnFinding) (secrets : List SecretFinding)
    (configs : List ConfigFinding) : ScoreResult :=
  let classified := vulns.map fun v => ClassifiedVuln.mk v (sev_from_cvss v)
  let points₁ := vulns.foldl (fun acc v => acc + vulnWeight v) 0
  let points₂ := secrets.foldl (fun acc s => acc + secretWeight s) points₁
  let points₃ := configs.foldl (fun acc c => acc + configWeight c) points₂
  { score := scoreOfPoints points₃
    points := points₃
    details := { vulns := classified, secrets := secrets, configs := configs } }

instance {ε α : Type} [DecidableEq ε] [DecidableEq α] : DecidableEq (Except ε α)
  | .ok a, .ok b => decidable_of_iff (a = b) (by simp)
  | .error a, .error b => decidable_of_iff (a = b) (by simp)
  | .ok _, .error _ => isFalse (by simp)
  | .error _, .ok _ => isFalse (by simp)

/-- Severity mapping as the specification words it (§4.2), stated over the
signal list for comparison with the implementation's `sev_from_cvss`: the
first numeric-form signal is thresholded at 9.0 / 7.0 / 4.0, and the
absence of any parseable numeric signal defaults to medium. -/
def claimSeverity (signals : List SevSignal) : String :=
  match (signals.filterMap id).head? with
  | none => "medium"
  | some score =>
    if score ≥ 9 then "critical"
    else if score ≥ 7 then "high"
    else if score ≥ 4 then "medium"
    else "low"

/-- First-occurrence key accumulation, as the spec words "first-seen
(package, version) order": append each key not already collected. -/
def firstSeenFrom {α : Type} [DecidableEq α] : List α → List α → List α
  | acc, [] => acc
  | acc, x :: xs => firstSeenFrom (if x ∈ acc then acc else acc ++ [x]) xs

/-- Keys in first-occurrence order. -/
def firstSeen {α : Type} [DecidableEq α] (l : List α) : List α :=
  firstSeenFrom [] l

section ScorerLemmas

/-- Folding `acc + f x` over a list equals the initial value plus the sum
of the mapped list. -/
theorem foldl_add_map_sum {α : Type} (f : α → ℕ) :
    ∀ (l : List α) (n : ℕ), l.foldl (fun a x => a + f x) n = n + (l.map f).sum
  | [], n => by simp
  | x :: xs, n => by
    simp only [List.foldl_cons, List.map_cons, List.sum_cons]
    rw [foldl_add_map_sum f xs (n + f x)]
    ring

/-- The accumulated `points` of `score_findings` is the sum of the three
categories' per-finding weights. -/
theorem score_findings_points (v : List VulnFinding) (s : List SecretFinding)
    (c : List ConfigFinding) :
    (score_findings v s c).points =
      (v.map vulnWeight).sum + (s.map secretWeight).sum + (c.map configWeight).sum := by
  show (c.foldl (fun acc x => acc + configWeight x)
      (s.foldl (fun acc x => acc + secretWeight x)
        (v.foldl (fun acc x => acc + vulnWeight x) 0))) = _
  rw [foldl_add_map_sum, foldl_add_map_sum, foldl_add_map_sum]
  ring

/-- The returned score is the normalization of the returned points. -/
theorem score_findings_score (v : List VulnFinding) (s : List SecretFinding)
    (c : List ConfigFinding) :
    (score_findings v s c).score = scoreOfPoints (score_findings v s c).points := rfl

/-- Closed integer form of the normalization: since the rounded value
`(603 - 10 * min p 60) / 6` has positive numerator, the rational floor is
integer division. -/
theorem scoreOfPoints_eq (p : ℕ) :
    scoreOfPoints p = ((603 : ℤ) - 10 * (min p 60 : ℕ)) / 6 := by
  unfold scoreOfPoints max_bad
  rw [Nat.zero_max, round_eq]
  have h : (100 : ℚ) - ((min p 60 : ℕ) : ℚ) / ((60 : ℕ) : ℚ) * 100 + 1 / 2
      = (((603 : ℤ) - 10 * (min p 60 : ℕ) : ℤ) : ℚ) / ((6 : ℕ) : ℚ) := by
    push_cast
    ring
  rw [h, Rat.floor_intCast_div_natCast]
  norm_num

/-- The normalized score always lies in `[0, 100]`. -/
theorem scoreOfPoints_bounds (p : ℕ) :
    0 ≤ scoreOfPoints p ∧ scoreOfPoints p ≤ 100 := by
  rw [scoreOfPoints_eq]
  omega

/-- The normalized score never increases as points increase. -/
theorem scoreOfPoints_antitone {p q : ℕ} (h : p ≤ q) :
    scoreOfPoints q ≤ scoreOfPoints p := by
  rw [scoreOfPoints_eq, scoreOfPoints_eq]
  omega

end ScorerLemmas

/-- The scorer's first-parsed-signal loop picks exactly the head of the
successfully parsed signals. -/
theorem firstParsed_eq : ∀ l : List SevSignal, firstParsed l = (l.filterMap id).head?
  | [] => rfl
  | some _ :: _ => by simp [firstParsed]
  | none :: rest => by simp [firstParsed, firstParsed_eq rest]

/-- C1: the Score Aggregator computes
`score = round(100 - (min(raw_points, 60) / 60) * 100)`; zero findings give
score 100, and `raw_points ≥ 60` gives score 0. -/
theorem C1_score_formula (v : List VulnFinding) (s : List SecretFinding)
    (c : List ConfigFinding) :
    (score_findings v s c).score =
      round ((100 : ℚ) - ((min (score_findings v s c).points 60 : ℕ) : ℚ) / 60 * 100) ∧
    (score_findings [] [] []).score = 100 ∧
    (60 ≤ (score_findings v s c).points → (score_findings v s c).score = 0) := by
  refine ⟨?_, ?_, ?_⟩
  · rw [score_findings_score]
    unfold scoreOfPoints max_bad
    rw [Nat.zero_max]
    norm_num
  · rw [score_findings_score]
    have h0 : (score_findings [] [] []).points = 0 := rfl
    rw [h0, scoreOfPoints_eq]
    decide
  · intro h
    rw [score_findings_score, scoreOfPoints_eq]
    omega

/-- Witness for C1 at a concrete input with six critical secrets
(raw points 60, clamped score 0). -/
theorem C1_score_formula_witness :
    (score_findings [] (List.replicate 6 ⟨"aws", "cfg.py", "AKIA****", some "critical", "rotate"⟩) []).score =
      round ((100 : ℚ) -
        ((min (score_findings [] (List.replicate 6 ⟨"aws", "cfg.py", "AKIA****", some "critical", "rotate"⟩) []).points 60 : ℕ) : ℚ) / 60 * 100) ∧
    (score_findings [] [] []).score = 100 ∧
    (score_findings [] (List.replicate 6 ⟨"aws", "cfg.py", "AKIA****", some "critical", "rotate"⟩) []).score = 0 := by
  have h := C1_score_formula []
    (List.replicate 6 ⟨"aws", "cfg.py", "AKIA****", some "critical", "rotate"⟩) []
  exact ⟨h.1, h.2.1, h.2.2 (by decide)⟩

/-- C2: the returned score is an integer in `[0, 100]` for every input. -/
theorem C2_score_bounds (v : List VulnFinding) (s : List SecretFinding)
    (c : List ConfigFinding) :
    0 ≤ (score_findings v s c).score ∧ (score_findings v s c).score ≤ 100 := by
  rw [score_findings_score]
  exact scoreOfPoints_bounds _

/-- C3: appending one additional finding of any severity to any one of the
three category lists never increases the score. -/
theorem C3_score_monotone (v : List VulnFinding) (s : List SecretFinding)
    (c : List ConfigFinding) (x : VulnFinding) (y : SecretFinding) (z : ConfigFinding) :
    (score_findings (v ++ [x]) s c).score ≤ (score_findings v s c).score ∧
    (score_findings v (s ++ [y]) c).score ≤ (score_findings v s c).score ∧
    (score_findings v s (c ++ [z])).score ≤ (score_findings v s c).score := by
  refine ⟨?_, ?_, ?_⟩ <;>
  · rw [score_findings_score, score_findings_score]
    apply scoreOfPoints_antitone
    rw [score_findings_points, score_findings_points]
    simp only [List.map_append, List.sum_append, List.map_cons, List.map_nil,
      List.sum_cons, List.sum_nil]
    omega

/-- C4: permuting each of the three input lists changes neither the score
nor the points. -/
theorem C4_score_permutation (v v' : List VulnFinding) (s s' : List SecretFinding)
    (c c' : List ConfigFinding) (hv : v.Perm v') (hs : s.Perm s') (hc : c.Perm c') :
    (score_findings v' s' c').score = (score_findings v s c).score ∧
    (score_findings v' s' c').points = (score_findings v s c).points := by
  have hp : (score_findings v' s' c').points = (score_findings v s c).points := by
    rw [score_findings_points, score_findings_points,
      (hv.map vulnWeight).sum_eq, (hs.map secretWeight).sum_eq,
      (hc.map configWeight).sum_eq]
  exact ⟨by rw [score_findings_score, score_findings_score, hp], hp⟩

/-- Witness for C4 at concrete two-element lists swapped in place. -/
theorem C4_score_permutation_witness :
    (score_findings
        [⟨"b", "2", [some "CVE-2"], "s2", [none], ""⟩, ⟨"a", "1", [some "CVE-1"], "s1", [], ""⟩]
        [⟨"tok", "b.py", "x", some "high", "f2"⟩, ⟨"aws", "a.py", "x", some "critical", "f1"⟩]
        [⟨"r2", "q.cfg", "d2", some "medium", "f", []⟩, ⟨"r1", "p.cfg", "d1", some "high", "f", []⟩]).score =
      (score_findings
        [⟨"a", "1", [some "CVE-1"], "s1", [], ""⟩, ⟨"b", "2", [some "CVE-2"], "s2", [none], ""⟩]
        [⟨"aws", "a.py", "x", some "critical", "f1"⟩, ⟨"tok", "b.py", "x", some "high", "f2"⟩]
        [⟨"r1", "p.cfg", "d1", some "high", "f", []⟩, ⟨"r2", "q.cfg", "d2", some "medium", "f", []⟩]).score ∧
    (score_findings
        [⟨"b", "2", [some "CVE-2"], "s2", [none], ""⟩, ⟨"a", "1", [some "CVE-1"], "s1", [], ""⟩]
        [⟨"tok", "b.py", "x", some "high", "f2"⟩, ⟨"aws", "a.py", "x", some "critical", "f1"⟩]
        [⟨"r2", "q.cfg", "d2", some "medium", "f", []⟩, ⟨"r1", "p.cfg", "d1", some "high", "f", []⟩]).points =
      (score_findings
        [⟨"a", "1", [some "CVE-1"], "s1", [], ""⟩, ⟨"b", "2", [some "CVE-2"], "s2", [none], ""⟩]
        [⟨"aws", "a.py", "x", some "critical", "f1"⟩, ⟨"tok", "b.py", "x", some "high", "f2"⟩]
        [⟨"r1", "p.cfg", "d1", some "high", "f", []⟩, ⟨"r2", "q.cfg", "d2", some "medium", "f", []⟩]).points :=
  C4_score_permutation _ _ _ _ _ _
    (List.Perm.swap _ _ _) (List.Perm.swap _ _ _) (List.Perm.swap _ _ _)

/-- C5: the Severity Classifier takes the first numeric-form signal and
thresholds it at 9.0 / 7.0 / 4.0, defaulting to medium when no signal
parses; a 9.8 signal resolves to critical with weight 10 and a 5.0 signal
to medium with weight 4. -/
theorem C5_classifier (v : VulnFinding) :
    sev_from_cvss v = claimSeverity v.severity ∧
    sev_from_cvss { v with severity := [some (98 / 10)] } = "critical" ∧
    vulnWeight { v with severity := [some (98 / 10)] } = 10 ∧
    sev_from_cvss { v with severity := [some 5] } = "medium" ∧
    vulnWeight { v with severity := [some 5] } = 4 := by
  refine ⟨?_, ?_, ?_, ?_, ?_⟩
  · rw [sev_from_cvss, claimSeverity, firstParsed_eq]
  · norm_num [sev_from_cvss, firstParsed]
  · norm_num [vulnWeight, sev_from_cvss, firstParsed, SEV_WEIGHTS]
  · norm_num [sev_from_cvss, firstParsed]
  · norm_num [vulnWeight, sev_from_cvss, firstParsed, SEV_WEIGHTS]
    decide

/-- C10: the details echo the inputs: each vulnerability entry is the input
record extended with `our_severity`, and the secrets and configs lists are
returned exactly as supplied. -/
theorem C10_details_frame (v : List VulnFinding) (s : List SecretFinding)
    (c : List ConfigFinding) :
    (score_findings v s c).details.vulns =
      v.map (fun x => ClassifiedVuln.mk x (sev_from_cvss x)) ∧
    (score_findings v s c).details.secrets = s ∧
    (score_findings v s c).details.configs = c :=
  ⟨rfl, rfl, rfl⟩

section NormalizerLemmas

/-- Updating an existing merged entry's id list leaves its key unchanged,
so one `insertFlat` step acts on keys as first-occurrence accumulation. -/
theorem insertFlat_keys (acc : List MergedEntry) (e : FlatEntry) :
    (insertFlat acc e).map MergedEntry.key =
      if e.key ∈ acc.map MergedEntry.key then acc.map MergedEntry.key
      else acc.map MergedEntry.key ++ [e.key] := by
  unfold insertFlat
  by_cases h : e.key ∈ acc.map MergedEntry.key
  · have hany : (acc.any fun m => m.key = e.key) = true := by
      rcases List.mem_map.1 h with ⟨m, hm, hk⟩
      exact List.any_eq_true.2 ⟨m, hm, by simp [hk]⟩
    rw [if_pos hany, if_pos h, List.map_map]
    refine List.map_congr_left fun m _ => ?_
    by_cases hk : m.key = e.key
    · simp only [Function.comp_apply, if_pos hk]
      rfl
    · simp only [Function.comp_apply, if_neg hk]
  · have hany : ¬(acc.any fun m => m.key = e.key) = true := by
      intro hc
      rcases List.any_eq_true.1 hc with ⟨m, hm, hk⟩
      exact h (List.mem_map.2 ⟨m, hm, by simpa using hk⟩)
    rw [if_neg hany, if_neg h]
    simp [MergedEntry.key, FlatEntry.key]

/-- Folding `insertFlat` over the flat list accumulates exactly the
first-occurrence key sequence. -/
theorem foldl_insertFlat_keys :
    ∀ (flat : List FlatEntry) (acc : List MergedEntry),
      (flat.foldl insertFlat acc).map MergedEntry.key =
        firstSeenFrom (acc.map MergedEntry.key) (flat.map FlatEntry.key)
  | [], acc => rfl
  | e :: es, acc => by
    simp only [List.foldl_cons, List.map_cons, firstSeenFrom]
    rw [foldl_insertFlat_keys es (insertFlat acc e), insertFlat_keys]
    by_cases h : e.key ∈ acc.map MergedEntry.key
    · rw [if_pos h, if_pos h]
    · rw [if_neg h, if_neg h]

/-- First-occurrence accumulation preserves distinctness. -/
theorem firstSeenFrom_nodup {α : Type} [DecidableEq α] :
    ∀ (l acc : List α), acc.Nodup → (firstSeenFrom acc l).Nodup
  | [], acc, h => h
  | x :: xs, acc, h => by
    simp only [firstSeenFrom]
    by_cases hx : x ∈ acc
    · rw [if_pos hx]
      exact firstSeenFrom_nodup xs acc h
    · rw [if_neg hx]
      exact firstSeenFrom_nodup xs (acc ++ [x]) (by simp [List.nodup_append, h, hx])

/-- Converting a merged entry to the final finding keeps its key. -/
theorem toFinding_key (m : MergedEntry) : m.toFinding.key = m.key := rfl

end NormalizerLemmas

/-- C7: the Normalizer's output has at most one finding per
`(package, version)` pair, and findings appear in first-seen key order of
the surviving flat records. -/
theorem C7_normalizer_keys (batch : List RawResult) (out : List VulnFinding)
    (flat : List FlatEntry) (seen : List (Option String))
    (h : flatten_vulns batch = .ok out)
    (hb : buildFlat batch [] = .ok (flat, seen)) :
    (out.map VulnFinding.key).Nodup ∧
    out.map VulnFinding.key = firstSeen (flat.map FlatEntry.key) := by
  unfold flatten_vulns at h
  rw [hb] at h
  have hout : out = (flat.foldl insertFlat []).map MergedEntry.toFinding := by
    cases h
    rfl
  have hkeys : out.map VulnFinding.key = (flat.foldl insertFlat []).map MergedEntry.key := by
    rw [hout, List.map_map]
    exact List.map_congr_left fun m _ => toFinding_key m
  rw [hkeys, foldl_insertFlat_keys]
  exact ⟨firstSeenFrom_nodup _ _ List.nodup_nil, rfl⟩

/-- Witness for C7 on a concrete batch: two advisories for package `a` and
one for package `b`. -/
theorem C7_normalizer_keys_witness :
    (([{ package := "a", version := "1", ids := [some "A1", some "A2"],
         summary := "sa", severity := [], fixed_hint := "" },
       { package := "b", version := "2", ids := [some "B1"],
         summary := "sc", severity := [], fixed_hint := "" }] :
        List VulnFinding).map VulnFinding.key).Nodup ∧
    ([{ package := "a", version := "1", ids := [some "A1", some "A2"],
        summary := "sa", severity := [], fixed_hint := "" },
      { package := "b", version := "2", ids := [some "B1"],
        summary := "sc", severity := [], fixed_hint := "" }] :
        List VulnFinding).map VulnFinding.key =
      firstSeen (([{ package := "a", version := "1", id := some "A1", aliases := [],
                     summary := "sa", severity := [], fixed := [], fixed_hint := "" },
                   { package := "a", version := "1", id := some "A2", aliases := [],
                     summary := "sb", severity := [], fixed := [], fixed_hint := "" },
                   { package := "b", version := "2", id := some "B1", aliases := [],
                     summary := "sc", severity := [], fixed := [], fixed_hint := "" }] :
                    List FlatEntry).map FlatEntry.key) :=
  C7_normalizer_keys
    [⟨some "a", some "1", [⟨some "A1", [], "sa", [], []⟩, ⟨some "A2", [], "sb", [], []⟩]⟩,
     ⟨some "b", some "2", [⟨some "B1", [], "sc", [], []⟩]⟩]
    _ _ [some "A1", some "A2", some "B1"] (by decide) (by decide)

/-- C8: two advisory records with distinct ids for the same
`(package, version)` key merge into one finding carrying both ids in
encounter order; summary and fix hint come from the first record, the
second contributes only its id. -/
theorem C8_merge (p ver i₁ i₂ : String) (v₁ v₂ : AdvisoryRecord)
    (h₁ : v₁.id = some i₁) (h₂ : v₂.id = some i₂) (hne : i₁ ≠ i₂) :
    flatten_vulns [⟨some p, some ver, [v₁, v₂]⟩] =
      .ok [{ package := p, version := ver, ids := [some i₁, some i₂],
             summary := v₁.summary, severity := v₁.severity,
             fixed_hint := fixedHint (extractFixed v₁.affected) }] := by
  simp only [flatten_vulns, buildFlat, processVulns, h₁, h₂]
  simp [hne, Ne.symm hne, insertFlat, MergedEntry.key, FlatEntry.key, MergedEntry.toFinding]

/-- Witness for C8 with ids CVE-1 and CVE-2, where only the first record
carries a summary and a fixed version. -/
theorem C8_merge_witness :
    flatten_vulns [⟨some "pkgA", some "1.0",
        [⟨some "CVE-1", [], "first summary", [], [⟨[⟨[⟨some "2.0.1"⟩]⟩]⟩]⟩,
         ⟨some "CVE-2", [], "second summary", [], []⟩]⟩] =
      .ok [{ package := "pkgA", version := "1.0", ids := [some "CVE-1", some "CVE-2"],
             summary := "first summary", severity := [],
             fixed_hint := "Upgrade to ≥ 2.0.1" }] :=
  C8_merge "pkgA" "1.0" "CVE-1" "CVE-2" _ _ rfl rfl (by decide)

section DedupLemmas

/-- The run-scoped seen set only grows across the inner advisory loop. -/
theorem processVulns_seen_subset (pkg ver : String) :
    ∀ (vs : List AdvisoryRecord) (seen : List (Option String)),
      seen ⊆ (processVulns pkg ver vs seen).2
  | [], seen => by simp [processVulns]
  | v :: vs, seen => by
    simp only [processVulns]
    by_cases h : v.id ∈ seen
    · rw [if_pos h]
      exact processVulns_seen_subset pkg ver vs seen
    · rw [if_neg h]
      intro x hx
      exact processVulns_seen_subset pkg ver vs (seen ++ [v.id]) (by simp [hx])

/-- After the inner loop, every processed advisory id is in the seen set. -/
theorem processVulns_ids_mem (pkg ver : String) :
    ∀ (vs : List AdvisoryRecord) (seen : List (Option String)),
      ∀ v ∈ vs, v.id ∈ (processVulns pkg ver vs seen).2
  | v :: vs, seen, w, hw => by
    simp only [processVulns]
    rcases List.mem_cons.1 hw with rfl | htail
    · by_cases h : w.id ∈ seen
      · rw [if_pos h]
        exact processVulns_seen_subset pkg ver vs seen h
      · rw [if_neg h]
        exact processVulns_seen_subset pkg ver vs (seen ++ [w.id]) (by simp)
    · by_cases h : v.id ∈ seen
      · rw [if_pos h]
        exact processVulns_ids_mem pkg ver vs seen w htail
      · rw [if_neg h]
        exact processVulns_ids_mem pkg ver vs (seen ++ [v.id]) w htail

/-- Advisories whose ids were all seen before are skipped wholesale. -/
theorem processVulns_skip (pkg ver : String) :
    ∀ (vs : List AdvisoryRecord) (seen : List (Option String)),
      (∀ v ∈ vs, v.id ∈ seen) → processVulns pkg ver vs seen = ([], seen)
  | [], seen, _ => rfl
  | v :: vs, seen, h => by
    simp only [processVulns, if_pos (h v (List.mem_cons_self v vs))]
    exact processVulns_skip pkg ver vs seen fun w hw => h w (List.mem_cons_of_mem v hw)

/-- A failing prefix makes the whole outer loop fail with the same error. -/
theorem buildFlat_append_error :
    ∀ (xs ys : List RawResult) (s : List (Option String)) (e : String),
      buildFlat xs s = .error e → buildFlat (xs ++ ys) s = .error e
  | [], _, _, _, h => by simp [buildFlat] at h
  | r :: rs, ys, s, e, h => by
    rw [List.cons_append]
    rw [buildFlat] at h ⊢
    match hn : r.name, hv : r.version with
    | none, _ => simpa [hn] using h
    | some pkg, none => simp [hn, hv] at h ⊢; exact h
    | some pkg, some ver =>
      simp only [hn, hv] at h ⊢
      cases hb : buildFlat rs (processVulns pkg ver r.vulns s).2 with
      | error e' =>
        rw [hb] at h
        rw [buildFlat_append_error rs ys _ e' hb]
        exact h
      | ok pr =>
        rw [hb] at h
        simp at h

/-- The outer loop over a concatenation runs the second half from the seen
set the first half left behind. -/
theorem buildFlat_append_ok :
    ∀ (xs ys : List RawResult) (s : List (Option String)) (f : List FlatEntry)
      (s' : List (Option String)), buildFlat xs s = .ok (f, s') →
      buildFlat (xs ++ ys) s =
        match buildFlat ys s' with
        | .error e => .error e
        | .ok (g, s'') => .ok (f ++ g, s'')
  | [], ys, s, f, s', h => by
    simp only [buildFlat] at h
    cases h
    rw [List.nil_append]
    cases hy : buildFlat ys s with
    | error e => rfl
    | ok pr => obtain ⟨g, s''⟩ := pr; simp
  | r :: rs, ys, s, f, s', h => by
    rw [List.cons_append]
    rw [buildFlat] at h ⊢
    match hn : r.name, hv : r.version with
    | none, _ => simp [hn] at h
    | some pkg, none => simp [hn, hv] at h
    | some pkg, some ver =>
      simp only [hn, hv] at h ⊢
      cases hb : buildFlat rs (processVulns pkg ver r.vulns s).2 with
      | error e' => rw [hb] at h; simp at h
      | ok pr =>
        obtain ⟨rest, seen'⟩ := pr
        rw [hb] at h
        simp only [Except.ok.injEq, Prod.mk.injEq] at h
        obtain ⟨hf, hs⟩ := h
        rw [buildFlat_append_ok rs ys _ rest seen' hb]
        subst hf hs
        cases hy : buildFlat ys seen' with
        | error e => rfl
        | ok pr' => obtain ⟨g, s''⟩ := pr'; simp

/-- The seen set only grows across the whole outer loop. -/
theorem buildFlat_seen_subset :
    ∀ (batch : List RawResult) (s : List (Option String)) (f : List FlatEntry)
      (s' : List (Option String)), buildFlat batch s = .ok (f, s') → s ⊆ s'
  | [], s, f, s', h => by
    simp only [buildFlat] at h
    cases h
    exact fun x hx => hx
  | r :: rs, s, f, s', h => by
    rw [buildFlat] at h
    match hn : r.name, hv : r.version with
    | none, _ => simp [hn] at h
    | some pkg, none => simp [hn, hv] at h
    | some pkg, some ver =>
      simp only [hn, hv] at h
      cases hb : buildFlat rs (processVulns pkg ver r.vulns s).2 with
      | error e' => rw [hb] at h; simp at h
      | ok pr =>
        obtain ⟨rest, seen'⟩ := pr
        rw [hb] at h
        simp only [Except.ok.injEq, Prod.mk.injEq] at h
        exact fun x hx =>
          h.2 ▸ buildFlat_seen_subset rs _ rest seen' hb
            (processVulns_seen_subset pkg ver r.vulns s hx)

/-- After a successful run, every advisory id of the batch is in the final
seen set. -/
theorem buildFlat_ids_mem :
    ∀ (batch : List RawResult) (s : List (Option String)) (f : List FlatEntry)
      (s' : List (Option String)), buildFlat batch s = .ok (f, s') →
      ∀ r ∈ batch, ∀ v ∈ r.vulns, v.id ∈ s'
  | r :: rs, s, f, s', h, q, hq, v, hv' => by
    rw [buildFlat] at h
    match hn : r.name, hver : r.version with
    | none, _ => simp [hn] at h
    | some pkg, none => simp [hn, hver] at h
    | some pkg, some ver =>
      simp only [hn, hver] at h
      cases hb : buildFlat rs (processVulns pkg ver r.vulns s).2 with
      | error e' => rw [hb] at h; simp at h
      | ok pr =>
        obtain ⟨rest, seen'⟩ := pr
        rw [hb] at h
        simp only [Except.ok.injEq, Prod.mk.injEq] at h
        rcases List.mem_cons.1 hq with rfl | htail
        · exact h.2 ▸ buildFlat_seen_subset rs _ rest seen' hb
            (processVulns_ids_mem pkg ver q.vulns s v hv')
        · exact h.2 ▸ buildFlat_ids_mem rs _ rest seen' hb q htail v hv'

/-- A successful run certifies that every record had both identity keys. -/
theorem buildFlat_shape :
    ∀ (batch : List RawResult) (s : List (Option String)) (f : List FlatEntry)
      (s' : List (Option String)), buildFlat batch s = .ok (f, s') →
      ∀ r ∈ batch, r.name.isSome ∧ r.version.isSome
  | r :: rs, s, f, s', h, q, hq => by
    rw [buildFlat] at h
    match hn : r.name, hver : r.version with
    | none, _ => simp [hn] at h
    | some pkg, none => simp [hn, hver] at h
    | some pkg, some ver =>
      simp only [hn, hver] at h
      cases hb : buildFlat rs (processVulns pkg ver r.vulns s).2 with
      | error e' => rw [hb] at h; simp at h
      | ok pr =>
        rcases List.mem_cons.1 hq with rfl | htail
        · exact ⟨by simp [hn], by simp [hver]⟩
        · exact buildFlat_shape rs _ pr.1 pr.2 (by rw [hb]) q htail

/-- A well-formed batch all of whose ids are already seen contributes no
flat entries and leaves the seen set unchanged. -/
theorem buildFlat_noop :
    ∀ (batch : List RawResult) (s : List (Option String)),
      (∀ r ∈ batch, r.name.isSome ∧ r.version.isSome) →
      (∀ r ∈ batch, ∀ v ∈ r.vulns, v.id ∈ s) → buildFlat batch s = .ok ([], s)
  | [], s, _, _ => rfl
  | r :: rs, s, hshape, hids => by
    obtain ⟨pkg, hn⟩ := Option.isSome_iff_exists.1 (hshape r (List.mem_cons_self r rs)).1
    obtain ⟨ver, hv⟩ := Option.isSome_iff_exists.1 (hshape r (List.mem_cons_self r rs)).2
    rw [buildFlat]
    simp only [hn, hv]
    rw [processVulns_skip pkg ver r.vulns s
      (fun v hv' => hids r (List.mem_cons_self r rs) v hv')]
    rw [buildFlat_noop rs s
      (fun q hq => hshape q (List.mem_cons_of_mem r hq))
      (fun q hq v hv' => hids q (List.mem_cons_of_mem r hq) v hv')]
    simp

/-- Feeding the same batch twice in one run yields the same output as
feeding it once: every id of the second copy is already in the seen set. -/
theorem flatten_vulns_idem (b : List RawResult) :
    flatten_vulns (b ++ b) = flatten_vulns b := by
  cases hb : buildFlat b [] with
  | error e =>
    unfold flatten_vulns
    rw [buildFlat_append_error b b [] e hb, hb]
  | ok pr =>
    obtain ⟨f, s⟩ := pr
    have h2 : buildFlat b s = .ok ([], s) :=
      buildFlat_noop b s (buildFlat_shape b [] f s hb) (buildFlat_ids_mem b [] f s hb)
    unfold flatten_vulns
    rw [buildFlat_append_ok b b [] f s hb, h2, hb]
    simp

end DedupLemmas

/-- C9: id-based suppression is global: a batch concatenated with itself
normalizes exactly as the batch alone, and an advisory id shared by two
distinct packages is attributed only to the first package encountered. -/
theorem C9_global_dedup (batch : List RawResult) (p₁ ver₁ p₂ ver₂ i : String)
    (a₁ a₂ : AdvisoryRecord) (h₁ : a₁.id = some i) (h₂ : a₂.id = some i) :
    flatten_vulns (batch ++ batch) = flatten_vulns batch ∧
    flatten_vulns [⟨some p₁, some ver₁, [a₁]⟩, ⟨some p₂, some ver₂, [a₂]⟩] =
      .ok [{ package := p₁, version := ver₁, ids := [some i],
             summary := a₁.summary, severity := a₁.severity,
             fixed_hint := fixedHint (extractFixed a₁.affected) }] := by
  refine ⟨flatten_vulns_idem batch, ?_⟩
  simp only [flatten_vulns, buildFlat, processVulns, h₁, h₂]
  simp [insertFlat, MergedEntry.toFinding]

/-- Witness for C9: doubling a one-package batch, and advisory CVE-9
shared by packages p1 and p2 attributed only to p1. -/
theorem C9_global_dedup_witness :
    flatten_vulns ([⟨some "a", some "1", [⟨some "X", [], "s", [], []⟩]⟩] ++
        [⟨some "a", some "1", [⟨some "X", [], "s", [], []⟩]⟩]) =
      flatten_vulns [⟨some "a", some "1", [⟨some "X", [], "s", [], []⟩]⟩] ∧
    flatten_vulns [⟨some "p1", some "1.0", [⟨some "CVE-9", [], "sum1", [], []⟩]⟩,
                   ⟨some "p2", some "2.0", [⟨some "CVE-9", [], "sum2", [], []⟩]⟩] =
      .ok [{ package := "p1", version := "1.0", ids := [some "CVE-9"],
             summary := "sum1", severity := [], fixed_hint := "" }] :=
  C9_global_dedup _ "p1" "1.0" "p2" "2.0" "CVE-9" _ _ rfl rfl

/-- A record missing either identity key makes the whole outer loop raise
the corresponding `KeyError`. -/
theorem buildFlat_error_of_missing :
    ∀ (batch : List RawResult) (seen : List (Option String)) (r : RawResult),
      r ∈ batch → (r.name = none ∨ r.version = none) →
      ∃ e, buildFlat batch seen = .error e
  | q :: rs, seen, r, hr, hmiss => by
    rcases List.mem_cons.1 hr with rfl | htail
    · rcases hmiss with hn | hv
      · exact ⟨"KeyError: name", by rw [buildFlat]; simp [hn]⟩
      · cases hn : r.name with
        | none => exact ⟨"KeyError: name", by rw [buildFlat]; simp [hn]⟩
        | some pkg => exact ⟨"KeyError: version", by rw [buildFlat]; simp [hn, hv]⟩
    · cases hn : q.name with
      | none => exact ⟨"KeyError: name", by rw [buildFlat]; simp [hn]⟩
      | some pkg =>
        cases hv : q.version with
        | none => exact ⟨"KeyError: version", by rw [buildFlat]; simp [hn, hv]⟩
        | some ver =>
          obtain ⟨e, he⟩ := buildFlat_error_of_missing rs
            (processVulns pkg ver q.vulns seen).2 r htail hmiss
          exact ⟨e, by rw [buildFlat]; simp [hn, hv, he]⟩

/-- C6 (amended): raw advisory results missing the package name or version
identity key fail fast in the Normalizer, while secret and config records
missing their severity field are not rejected: the scorer completes,
weighting each such record at the defaulted medium weight 4. -/
theorem C6_fail_fast (batch : List RawResult) (r : RawResult) (hr : r ∈ batch)
    (hmiss : r.name = none ∨ r.version = none) (s : SecretFinding)
    (hs : s.severity = none) (c : ConfigFinding) (hc : c.severity = none) :
    (∃ e, flatten_vulns batch = .error e) ∧
    secretWeight s = 4 ∧ configWeight c = 4 ∧
    (score_findings [] [s] [c]).points = 8 := by
  obtain ⟨e, he⟩ := buildFlat_error_of_missing batch [] r hr hmiss
  refine ⟨⟨e, by rw [flatten_vulns, he]⟩, ?_, ?_, ?_⟩
  · simp [secretWeight, hs, SEV_WEIGHTS]
  · simp [configWeight, hc, SEV_WEIGHTS]
  · rw [score_findings_points]
    simp [secretWeight, configWeight, hs, hc, SEV_WEIGHTS]

/-- Witness for C6 (amended): a result with no `name` key fails, while a
severity-less secret and config pair scores 4 + 4 points. -/
theorem C6_fail_fast_witness :
    (∃ e, flatten_vulns [⟨none, some "1.0", []⟩] = .error e) ∧
    secretWeight ⟨"aws", "a.py", "x", none, "f"⟩ = 4 ∧
    configWeight ⟨"r", "p.cfg", "d", none, "f", []⟩ = 4 ∧
    (score_findings [] [⟨"aws", "a.py", "x", none, "f"⟩]
      [⟨"r", "p.cfg", "d", none, "f", []⟩]).points = 8 :=
  C6_fail_fast [⟨none, some "1.0", []⟩] ⟨none, some "1.0", []⟩
    (List.mem_singleton.2 rfl) (Or.inl rfl) _ rfl _ rfl

/-- Refutation of C6 as stated: a secret record whose severity field is
missing is not propagated as a violation — `score_findings` completes
normally, silently scoring the record at the defaulted medium weight. -/
theorem C6_counterexample :
    (score_findings [] [⟨"aws_secret", "cfg.py", "AKIA****", none, "rotate"⟩] []).points = 4 ∧
    (score_findings [] [⟨"aws_secret", "cfg.py", "AKIA****", none, "rotate"⟩] []).score = 93 ∧
    (score_findings [] [⟨"aws_secret", "cfg.py", "AKIA****", none, "rotate"⟩] []).details.secrets
      = [⟨"aws_secret", "cfg.py", "AKIA****", none, "rotate"⟩] := by
  refine ⟨by decide, ?_, by decide⟩
  rw [score_findings_score]
  have hp : (score_findings []
      [⟨"aws_secret", "cfg.py", "AKIA****", none, "rotate"⟩] []).points = 4 := by decide
  rw [hp, scoreOfPoints_eq]
  decide
